import Mathlib

/-!
# stock-alert-backend: `internal/utils/data.go`

A shallow embedding of the quote aggregation (`GetQuotes`), the page URL builder
(`getQuotesUrl`), the packed timestamp decoder (`parseTimestamp`) and the tick
post-processing loop of `GetEODTicks`, followed by the theorems about them.

Go values are embedded as follows.
* `int` / `int64` are `Int` (Go's `int` is 64 bits wide on the platforms the server is
  built for). The arithmetic of `parseTimestamp` stays far inside that range on every
  `int` input, so no wrap-around is modelled; a theorem over all of `Int` covers every `int`.
* a Go `string` made of ASCII bytes is a `String`; byte slicing `s[a:b]` is taken on the
  list of its characters and panics (is `none`) when out of range.
* a Go `(value, error)` pair is kept as a pair, `nil` being `none`.
* a Go slice that may be `nil` is an `Option (List _)`.
-/

set_option maxRecDepth 8000

namespace StockAlert

/-! ## strconv -/

/-- The two error kinds of Go's `strconv.NumError`. -/
inductive NumError where
  | ErrSyntax
  | ErrRange
  deriving DecidableEq, Repr

/-- The byte `'0' + d`. -/
def digitChar (d : Nat) : Char := Char.ofNat (48 + d)

/-- The digit loop of `strconv.formatBits`: `for u >= 10 { a[i] = u%10 + '0'; u /= 10 }`
followed by the last digit. `fuel` bounds the number of iterations. -/
def formatBits : Nat → Nat → List Char → List Char
  | 0, _, acc => acc
  | fuel + 1, u, acc =>
    if u < 10 then digitChar u :: acc
    else formatBits fuel (u / 10) (digitChar (u % 10) :: acc)

/-- Decimal rendering of a natural number. -/
def natStr (u : Nat) : List Char := formatBits (u + 1) u []

/-- Go's `strconv.Itoa`, as the list of bytes of the result. -/
def itoaChars (i : Int) : List Char :=
  if i < 0 then '-' :: natStr i.natAbs else natStr i.natAbs

/-- Go's `strconv.Itoa`. -/
def Itoa (i : Int) : String := String.mk (itoaChars i)

/-- A byte is a decimal digit. -/
def IsDigit (c : Char) : Prop := 48 ≤ c.toNat ∧ c.toNat ≤ 57

/-- The accumulation loop shared by `strconv.Atoi`'s fast path and `ParseUint`:
`ch -= '0'; if ch > 9 { syntax error }; n = n*10 + ch`. -/
def atoiLoop : List Char → Nat → Option Nat
  | [], n => some n
  | ch :: rest, n =>
    if 48 ≤ ch.toNat ∧ ch.toNat ≤ 57 then atoiLoop rest (n * 10 + (ch.toNat - 48))
    else none

/-- Strips one leading sign byte, as `Atoi` and `ParseInt` both do. -/
def stripSign : List Char → Bool × List Char
  | '-' :: rest => (true, rest)
  | '+' :: rest => (false, rest)
  | s => (false, s)

/-- Go's `strconv.Atoi` on a byte string: the fast path for `0 < len(s) < 19`,
`ParseInt(s, 10, 0)` otherwise (64-bit `int`). -/
def Atoi (s : List Char) : Int × Option NumError :=
  let (neg, body) := stripSign s
  if s = [] ∨ body = [] then (0, some .ErrSyntax)
  else
    match atoiLoop body 0 with
    | none => (0, some .ErrSyntax)
    | some n =>
      if 0 < s.length ∧ s.length < 19 then
        (if neg then -(n : Int) else (n : Int), none)
      else if ¬ neg ∧ 2 ^ 63 ≤ n then (2 ^ 63 - 1, some .ErrRange)
      else if neg ∧ 2 ^ 63 < n then (-(2 ^ 63), some .ErrRange)
      else (if neg then -(n : Int) else (n : Int), none)

/-- The slice expression `s[lo:hi]`; `none` is the run-time panic
"slice bounds out of range". -/
def slice (s : List Char) (lo hi : Nat) : Option (List Char) :=
  if lo ≤ hi ∧ hi ≤ s.length then some ((s.drop lo).take (hi - lo)) else none

/-! ## time -/

/-- Days from 1970-01-01 to the given proleptic Gregorian civil date. -/
def daysFromCivil (y m d : Int) : Int :=
  let y1 := if m ≤ 2 then y - 1 else y
  let era := y1 / 400
  let yoe := y1 - era * 400
  let mp := if m > 2 then m - 3 else m + 9
  let doy := (153 * mp + 2) / 5 + d - 1
  let doe := yoe * 365 + yoe / 4 - yoe / 100 + doy
  era * 146097 + doe - 719468

/-- The value `time.Date(year, month, day, hour, min, sec, nsec, loc).Unix()` as a function
of the seven integers, for one fixed location `loc`. `parseTimestamp` uses `time.Local`,
which is a property of the running process, so the function is a parameter of the model. -/
abbrev DateUnix := Int → Int → Int → Int → Int → Int → Int → Int

/-- The instance of `DateUnix` for a process whose local zone is UTC: out-of-range
months roll into the year, and the remaining fields add up linearly, as `time.Date`
normalises them. -/
def utcDateUnix : DateUnix := fun year month day hour min sec nsec =>
  let m0 := month - 1
  let y := year + m0 / 12
  let m := m0 % 12 + 1
  (daysFromCivil y m 1 + (day - 1)) * 86400 + hour * 3600 + min * 60 + sec + nsec / 1000000000

/-- Number of days of a month of the Gregorian calendar. -/
def daysInMonth (year month : Nat) : Nat :=
  if month = 2 then
    if year % 4 = 0 ∧ (year % 100 ≠ 0 ∨ year % 400 = 0) then 29 else 28
  else if month = 4 ∨ month = 6 ∨ month = 9 ∨ month = 11 then 30
  else 31

/-! ## parseTimestamp -/

/-- What a call of a Go function `func(..) (int64, error)` does: it returns its pair,
or it panics. -/
inductive Returned where
  | returned (value : Int) (err : Option NumError)
  | panicked
  deriving DecidableEq, Repr

/-- `parseTimestamp` (data.go, lines 265-288). -/
def parseTimestamp (date : DateUnix) (minuteTimestamp : Int) : Returned :=
  let s := itoaChars minuteTimestamp
  match slice s 0 2 with
  | none => .panicked
  | some s02 =>
    match Atoi s02 with
    | (_, some err) => .returned 0 (some err)
    | (year, none) =>
      let year := year + 2000
      match slice s 2 4 with
      | none => .panicked
      | some s24 =>
        match Atoi s24 with
        | (_, some err) => .returned 0 (some err)
        | (month, none) =>
          match slice s 4 6 with
          | none => .panicked
          | some s46 =>
            match Atoi s46 with
            | (_, some err) => .returned 0 (some err)
            | (day, none) =>
              match slice s 6 10 with
              | none => .panicked
              | some s610 =>
                match Atoi s610 with
                | (_, some err) => .returned 0 (some err)
                | (min, none) =>
                  let hours := Int.tdiv min 60
                  let minutes := min - hours * 60
                  .returned (date year month day hours minutes 0 0 * 1000) none

/-! ## getQuotesUrl -/

/-- The two functions of Go's `strings` package that the code calls. They work on
Unicode tables of the Go runtime and are parameters of the model. -/
structure Lib where
  ToUpper : String → String
  TrimSpace : String → String

/-- The civil date that a `time.Time` shows in its own location; `Format` with the layout
`LayoutISO` reads nothing else of it. -/
structure Time where
  Year : Int
  Month : Nat
  Day : Nat
  deriving DecidableEq, Repr

/-- The layout constant of data.go, line 52. -/
def LayoutISO : String := "02/01/2006"

/-- Go's `time.appendInt`: the decimal digits of `x`, zero-padded on the left to `width`,
behind a minus sign when `x` is negative. -/
def appendInt (x : Int) (width : Nat) : List Char :=
  (if x < 0 then ['-'] else []) ++
    List.replicate (width - (natStr x.natAbs).length) '0' ++ natStr x.natAbs

/-- The call `t.Format(LayoutISO)`: `02` is the zero-padded day, `01` the zero-padded
month, `2006` the year on four digits, the slashes are copied. -/
def formatLayoutISO (t : Time) : String :=
  String.mk (appendInt t.Day 2) ++ "/" ++ String.mk (appendInt t.Month 2) ++ "/" ++
    String.mk (appendInt t.Year 4)

/-- `getQuotesUrl` (data.go, lines 214-221). -/
def getQuotesUrl (lib : Lib) (symbol : String) (startDate : Time) (duration : String)
    (period : String) (page : Int) : String :=
  let sanitizedSymbol := lib.ToUpper (lib.TrimSpace symbol)
  if page = 1 then
    "http://www.boursorama.com/_formulaire-periode/?symbol=" ++ sanitizedSymbol ++
      "&historic_search[startDate]=" ++ formatLayoutISO startDate ++
      "&historic_search[duration]=" ++ duration ++ "&historic_search[period]=" ++ period
  else
    "http://www.boursorama.com/_formulaire-periode/page-" ++ Itoa page ++ "?symbol=" ++
      sanitizedSymbol ++ "&historic_search[startDate]=" ++ formatLayoutISO startDate ++
      "&historic_search[duration]=" ++ duration ++ "&historic_search[period]=" ++ period

/-- The query string that `getQuotesUrl` puts behind the path. -/
def queryString (lib : Lib) (symbol : String) (startDate : Time) (duration : String)
    (period : String) : String :=
  "?symbol=" ++ lib.ToUpper (lib.TrimSpace symbol) ++ "&historic_search[startDate]=" ++
    (String.mk (appendInt startDate.Day 2) ++ "/" ++ String.mk (appendInt startDate.Month 2)
      ++ "/" ++ String.mk (appendInt startDate.Year 4)) ++
    "&historic_search[duration]=" ++ duration ++ "&historic_search[period]=" ++ period

/-- An instance of `Lib` that agrees with Go on ASCII strings: letters `a`..`z` are
raised, and the bytes space, tab, line feed, vertical tab, form feed and carriage return
are trimmed from both ends. -/
def asciiLib : Lib where
  ToUpper := fun s =>
    String.mk (s.data.map fun c =>
      if 97 ≤ c.toNat ∧ c.toNat ≤ 122 then Char.ofNat (c.toNat - 32) else c)
  TrimSpace := fun s =>
    let sp : Char → Bool := fun c => c.toNat = 32 || (9 ≤ c.toNat && c.toNat ≤ 13)
    String.mk ((s.data.dropWhile sp).reverse.dropWhile sp).reverse

/-! ## GetEODTicks: the tick post-processing loop -/

/-- The struct `Tick` (data.go, lines 42-49). The `float32` fields are kept as their bit
patterns; the loop does not touch them. -/
structure Tick where
  Date : Int
  OpenPrice : Nat
  HighestPrice : Nat
  LowestPrice : Nat
  ClosingPrice : Nat
  Volume : Nat
  deriving DecidableEq, Repr

/-- The body of the loop (data.go, lines 250-254) behind the call of `parseTimestamp`,
as a function of what the call did. When the call returns, `fmt.Errorf` only builds a
value that is dropped, and `Date` is assigned `int(timestamp)` on both branches of the
test `err != nil`. A panic of the call leaves the loop. -/
def storeTimestamp (t : Tick) : Returned → Option Tick
  | .panicked => none
  | .returned timestamp _ => some { t with Date := timestamp }

/-- The loop over `ticks.Content.QuoteTab` (data.go, lines 249-255); `none` when a call of
`parseTimestamp` panics. -/
def quoteTabLoop (date : DateUnix) : List Tick → Option (List Tick)
  | [] => some []
  | t :: rest =>
    match storeTimestamp t (parseTimestamp date t.Date) with
    | none => none
    | some t1 =>
      match quoteTabLoop date rest with
      | none => none
      | some rest1 => some (t1 :: rest1)

/-- The first component of a returned pair. -/
def Returned.timestamp : Returned → Int
  | .returned v _ => v
  | .panicked => 0

/-! ## GetQuotes -/

/-- The errors that reach the caller of `GetQuotes`, by the place that builds them:
the two `fmt.Errorf` of the parameter checks, and in `getHTMLDocument` the failure of
`http.Get`, the status test and the failure of `goquery.NewDocumentFromReader`. -/
inductive Error where
  | validation (msg : String)
  | transport (msg : String)
  | status (code : Nat) (text : String)
  | decode (msg : String)
  deriving DecidableEq, Repr

/-- The struct `Quote` (data.go, lines 24-27). -/
structure Quote where
  Date : String
  Price : String
  deriving DecidableEq, Repr

/-- What the code reads of a parsed `goquery.Document`: the number of elements selected by
`span.c-pagination__content`, and for each element selected by `.c-table tr`, in
document order, the text of its first `.c-table__cell` and the text of the next sibling
of that cell. -/
structure Document where
  paginationSpans : Nat
  tableRows : List (String × String)
  deriving DecidableEq, Repr

/-- The remote site as seen through `getHTMLDocument` (data.go, lines 195-212): for a
target, the parsed document or the error. -/
abbrev Source := String → Except Error Document

/-- The allowed durations (data.go, line 54). -/
def DefaultDurations : List String :=
  ["1M", "2M", "3M", "4M", "5M", "6M", "7M", "8M", "9M", "10M", "11M", "1Y", "2Y", "3Y"]

/-- The allowed periods (data.go, line 55). -/
def DefaultPeriods : List String := ["1", "7", "30", "365"]

/-- `contains` (data.go, lines 290-297). -/
def contains : List String → String → Bool
  | [], _ => false
  | value :: values, query => if value = query then true else contains values query

/-- The verb `%v` of `fmt` on a `[]string`. -/
def fmtStrings (values : List String) : String := "[" ++ " ".intercalate values ++ "]"

/-- The closure `scrapQuotes` (data.go, lines 117-131) applied to the document that the
variable `doc` holds: the first row is the table header and is skipped. -/
def scrapQuotes (lib : Lib) (doc : Document) : List Quote :=
  doc.tableRows.enum.filterMap fun (i, row) =>
    if i = 0 then none
    else some { Date := lib.TrimSpace row.1, Price := lib.TrimSpace row.2 }

/-- Go's `append(a, b...)` on slices that may be nil: nothing appended returns `a`. -/
def goAppend (a b : Option (List Quote)) : Option (List Quote) :=
  match b with
  | none => a
  | some [] => a
  | some (x :: xs) => some (a.getD [] ++ x :: xs)

/-- Where a page goroutine (data.go, lines 161-168, with the closure `getPageQuotes`,
lines 145-152, that it calls) stands. Every statement is one step; line 147 is two steps,
the call and the assignment of its results, and so is line 164. -/
inductive UnitPc where
  /-- line 146: `url = getQuotesUrl(.., index + 1)` -/
  | setUrl
  /-- line 147, right-hand side: `getHTMLDocument(url)` -/
  | callFetch
  /-- line 147, assignment: `doc, err = ..` -/
  | assignDoc (r : Except Error Document)
  /-- line 148: `if err != nil` -/
  | testErr
  /-- line 149: `return nil, err` -/
  | returnErr
  /-- line 151: `return scrapQuotes(), nil` -/
  | returnQuotes
  /-- line 164, assignment: `quotesByPage[index], err = ..` -/
  | assignSlot (quotes : Option (List Quote)) (e : Option Error)
  /-- line 165: `if err != nil` -/
  | testErr2
  /-- line 166: the operand `err` of the send statement is evaluated -/
  | evalSend
  /-- line 166: blocked in `fatalErrors <- e` -/
  | sending (e : Option Error)
  /-- line 162: the deferred `wg.Done()` -/
  | deferDone
  | finished

/-- Where the goroutine of lines 172-175 stands. -/
inductive WaiterPc where
  /-- line 173: `wg.Wait()` -/
  | waiting
  /-- line 174: `close(wgDone)` -/
  | closing
  | finished
  deriving DecidableEq, Repr

/-- Where the caller's goroutine stands behind the loop of lines 158-169. -/
inductive MainPc where
  /-- line 178: blocked in `select` -/
  | selecting
  /-- line 183: `close(fatalErrors)` -/
  | closeErrors (e : Option Error)
  /-- line 184: `return nil, err` -/
  | returnErr (e : Option Error)
  /-- lines 187-192: the concatenation and `return allQuotes, nil` -/
  | concat
  | returned (quotes : Option (List Quote)) (err : Option Error)
  deriving DecidableEq, Repr

/-- The variables of one call of `GetQuotes` that its goroutines share, and where each
goroutine stands. `url`, `doc` and `err` are the variables declared at lines 109-110:
the closures `getPageQuotes` and `scrapQuotes` and the goroutine bodies assign and read
them with `=`, they declare none of their own. -/
structure State where
  url : String
  doc : Option Document
  err : Option Error
  quotesByPage : List (Option (List Quote))
  /-- the goroutine started with `index = i + 1` is at position `i` -/
  units : List UnitPc
  /-- the counter of `wg` -/
  wg : Nat
  fatalErrorsClosed : Bool
  wgDoneClosed : Bool
  waiter : WaiterPc
  main : MainPc
  /-- the targets passed to `getHTMLDocument`, in call order -/
  fetched : List String
  /-- a goroutine has panicked: the process is gone -/
  crashed : Bool

/-- One scheduling decision. -/
inductive Action where
  /-- the page goroutine started with this `index` runs its next step -/
  | unit (index : Nat)
  /-- the goroutine of lines 172-175 runs its next step -/
  | waiter
  /-- the `select` of line 178 receives from the page goroutine blocked in its send -/
  | recv (index : Nat)
  /-- the caller's goroutine runs its next step; in `select` that is the case `<-wgDone` -/
  | main
  deriving DecidableEq, Repr

/-- The request of one call of `GetQuotes`. -/
structure Request where
  symbol : String
  startDate : Time
  duration : String
  period : String

/-- The step of the page goroutine started with `index`, from program point `pc`;
`none` when it cannot move. -/
def stepUnit (lib : Lib) (src : Source) (req : Request) (s : State) (index : Nat)
    (pc : UnitPc) : Option State :=
  let goto := fun (s1 : State) (pc1 : UnitPc) =>
    some { s1 with units := s1.units.set (index - 1) pc1 }
  match pc with
  | .setUrl =>
    goto { s with url := getQuotesUrl lib req.symbol req.startDate req.duration req.period
                          ((index : Int) + 1) } .callFetch
  | .callFetch => goto { s with fetched := s.fetched ++ [s.url] } (.assignDoc (src s.url))
  | .assignDoc (.error e) => goto { s with doc := none, err := some e } .testErr
  | .assignDoc (.ok d) => goto { s with doc := some d, err := none } .testErr
  | .testErr => if s.err ≠ none then goto s .returnErr else goto s .returnQuotes
  | .returnErr => goto s (.assignSlot none s.err)
  | .returnQuotes =>
    match s.doc with
    | none => some { s with crashed := true }
    | some d => goto s (.assignSlot (some (scrapQuotes lib d)) none)
  | .assignSlot quotes e =>
    goto { s with quotesByPage := s.quotesByPage.set index quotes, err := e } .testErr2
  | .testErr2 => if s.err ≠ none then goto s .evalSend else goto s .deferDone
  | .evalSend => goto s (.sending s.err)
  | .sending _ => if s.fatalErrorsClosed then some { s with crashed := true } else none
  | .deferDone => goto { s with wg := s.wg - 1 } .finished
  | .finished => none

/-- One step of the running call under a scheduling decision; `none` when the chosen
goroutine cannot move (it is blocked or has ended, or the process has crashed). -/
def step (lib : Lib) (src : Source) (req : Request) (s : State) : Action → Option State
  | .unit index =>
    if s.crashed ∨ index = 0 then none
    else
      match s.units.get? (index - 1) with
      | none => none
      | some pc => stepUnit lib src req s index pc
  | .waiter =>
    if s.crashed then none
    else
      match s.waiter with
      | .waiting => if s.wg = 0 then some { s with waiter := .closing } else none
      | .closing => some { s with wgDoneClosed := true, waiter := .finished }
      | .finished => none
  | .recv index =>
    if s.crashed ∨ index = 0 ∨ s.fatalErrorsClosed then none
    else
      match s.main, s.units.get? (index - 1) with
      | .selecting, some (.sending e) =>
        some { s with main := .closeErrors e, units := s.units.set (index - 1) .deferDone }
      | _, _ => none
  | .main =>
    if s.crashed then none
    else
      match s.main with
      | .selecting => if s.wgDoneClosed then some { s with main := .concat } else none
      | .closeErrors e => some { s with fatalErrorsClosed := true, main := .returnErr e }
      | .returnErr e => some { s with main := .returned none e }
      | .concat => some { s with main := .returned (s.quotesByPage.foldl goAppend none) none }
      | .returned _ _ => none

/-- Runs a schedule; a decision whose goroutine cannot move is passed over. -/
def run (lib : Lib) (src : Source) (req : Request) : State → List Action → State
  | s, [] => s
  | s, a :: rest =>
    match step lib src req s a with
    | none => run lib src req s rest
    | some s1 => run lib src req s1 rest

/-- The state behind the loop of lines 158-169: slot 0 holds the rows of the first page,
one goroutine per page index `1 .. nbOfPages - 1` has been started, the caller is about
to enter `select`. -/
def fanOut (lib : Lib) (url : String) (doc : Document) : State where
  url := url
  doc := some doc
  err := none
  quotesByPage := (some (scrapQuotes lib doc)) :: List.replicate (doc.paginationSpans - 1) none
  units := List.replicate (doc.paginationSpans - 1) .setUrl
  wg := doc.paginationSpans - 1
  fatalErrorsClosed := false
  wgDoneClosed := false
  waiter := .waiting
  main := .selecting
  fetched := [url]
  crashed := false

/-- What one call of `GetQuotes` has done when the schedule is used up. -/
structure Outcome where
  /-- the pair returned to the caller, if the call has returned -/
  result : Option (Option (List Quote) × Option Error)
  /-- the targets passed to `getHTMLDocument`, in call order -/
  fetched : List String
  /-- a goroutine of the call has panicked -/
  crashed : Bool
  deriving DecidableEq, Repr

/-- What the caller has got back in a state. -/
def State.result (s : State) : Option (Option (List Quote) × Option Error) :=
  match s.main with
  | .returned quotes err => some (quotes, err)
  | _ => none

/-- `GetQuotes` (data.go, lines 100-193) against a source, its goroutines scheduled by
`schedule`. -/
def GetQuotes (lib : Lib) (src : Source) (req : Request) (schedule : List Action) : Outcome :=
  if ¬ contains DefaultDurations req.duration then
    { result := some (none, some (.validation
        ("Duration must be one of " ++ fmtStrings DefaultDurations))),
      fetched := [], crashed := false }
  else if ¬ contains DefaultPeriods req.period then
    { result := some (none, some (.validation
        ("Period must be one of " ++ fmtStrings DefaultPeriods))),
      fetched := [], crashed := false }
  else
    let url := getQuotesUrl lib req.symbol req.startDate req.duration req.period 1
    match src url with
    | .error err => { result := some (none, some err), fetched := [url], crashed := false }
    | .ok doc =>
      let nbOfPages := doc.paginationSpans
      if nbOfPages < 2 then
        { result := some (some (scrapQuotes lib doc), none), fetched := [url], crashed := false }
      else
        let s := run lib src req (fanOut lib url doc) schedule
        { result := s.result, fetched := s.fetched, crashed := s.crashed }

/-! ## A three-page fixture -/

/-- The request `XYZ`, 01/01/2024, `3M`, `1`. -/
def fixtureRequest : Request where
  symbol := "XYZ"
  startDate := { Year := 2024, Month := 1, Day := 1 }
  duration := "3M"
  period := "1"

/-- Page 1 of the fixture: three pagination markers, a header row and two quotes. -/
def fixturePage1 : Document where
  paginationSpans := 3
  tableRows := [("Date", "Dernier"), (" 01/03/2024 ", " 10.00 "), ("29/02/2024", "9.90")]

/-- Page 2 of the fixture. -/
def fixturePage2 : Document where
  paginationSpans := 3
  tableRows := [("Date", "Dernier"), ("28/02/2024", "9.80")]

/-- Page 3 of the fixture. -/
def fixturePage3 : Document where
  paginationSpans := 3
  tableRows := [("Date", "Dernier"), ("27/02/2024", "9.70")]

/-- The target of page `page` of the fixture request. -/
def fixtureUrl (page : Int) : String :=
  getQuotesUrl asciiLib fixtureRequest.symbol fixtureRequest.startDate
    fixtureRequest.duration fixtureRequest.period page

/-- A three-page site: page 1 is `fixturePage1`, pages 2 and 3 answer as given, any other
target is not found. -/
def fixtureSite (page2 page3 : Except Error Document) : Source := fun url =>
  if url = fixtureUrl 1 then .ok fixturePage1
  else if url = fixtureUrl 2 then page2
  else if url = fixtureUrl 3 then page3
  else .error (.status 404 "404 Not Found")

/-- The goroutine of `index` runs `k` steps in a row. -/
def unitSteps (index k : Nat) : List Action := List.replicate k (.unit index)

/-- The schedule in which the goroutine of page 2 runs to its end, then the goroutine of
page 3, then the waiter, then the caller. -/
def scheduleInTurn : List Action :=
  unitSteps 1 8 ++ unitSteps 2 8 ++ [.waiter, .waiter, .main, .main]

/-- The schedule in which both page goroutines have fetched and stored their document
before either of them goes on to read it. -/
def scheduleOverlap : List Action :=
  unitSteps 1 3 ++ unitSteps 2 3 ++ unitSteps 1 5 ++ unitSteps 2 5 ++
    [.waiter, .waiter, .main, .main]

/-- The schedule in which both page goroutines reach their send, the caller receives from
the first, closes the channel and returns, and the second goroutine resumes. -/
def scheduleTwoSenders : List Action :=
  unitSteps 1 8 ++ unitSteps 2 8 ++ [.recv 1, .main, .main, .unit 2]

/-! ## Decimal rendering: auxiliary facts -/

theorem digitChar_toNat (d : Nat) (h : d < 10) : (digitChar d).toNat = 48 + d := by
  interval_cases d <;> rfl

theorem formatBits_fuel (f1 : Nat) : ∀ (f2 u : Nat) (acc : List Char), u < f1 → u < f2 →
    formatBits f1 u acc = formatBits f2 u acc := by
  induction f1 with
  | zero => intro f2 u acc h; omega
  | succ k ih =>
    intro f2 u acc h1 h2
    cases f2 with
    | zero => omega
    | succ j =>
      simp only [formatBits]
      split
      · rfl
      · exact ih j (u / 10) _ (by omega) (by omega)

theorem formatBits_acc (f : Nat) : ∀ (u : Nat) (acc : List Char),
    formatBits f u acc = formatBits f u [] ++ acc := by
  induction f with
  | zero => intro u acc; simp [formatBits]
  | succ k ih =>
    intro u acc
    simp only [formatBits]
    split
    · simp
    · rw [ih (u / 10) (digitChar (u % 10) :: acc), ih (u / 10) [digitChar (u % 10)]]
      simp

theorem natStr_lt_ten (u : Nat) (h : u < 10) : natStr u = [digitChar u] := by
  simp [natStr, formatBits, h]

theorem natStr_step (u : Nat) (h : 10 ≤ u) :
    natStr u = natStr (u / 10) ++ [digitChar (u % 10)] := by
  have h1 : ¬ u < 10 := by omega
  show formatBits (u + 1) u [] = formatBits (u / 10 + 1) (u / 10) [] ++ [digitChar (u % 10)]
  rw [formatBits, if_neg h1, formatBits_acc,
    formatBits_fuel u (u / 10 + 1) (u / 10) [] (by omega) (by omega)]

theorem natStr_digits (u : Nat) : ∀ c ∈ natStr u, IsDigit c := by
  induction u using Nat.strong_induction_on with
  | _ u ih =>
    by_cases h : u < 10
    · intro c hc
      rw [natStr_lt_ten u h] at hc
      simp only [List.mem_singleton] at hc
      subst hc
      simp only [IsDigit, digitChar_toNat u h]; omega
    · intro c hc
      rw [natStr_step u (by omega)] at hc
      rcases List.mem_append.mp hc with hc | hc
      · exact ih (u / 10) (by omega) c hc
      · simp only [List.mem_singleton] at hc
        subst hc
        simp only [IsDigit, digitChar_toNat (u % 10) (by omega)]; omega

theorem natStr_ne_nil (u : Nat) : natStr u ≠ [] := by
  by_cases h : u < 10
  · simp [natStr_lt_ten u h]
  · simp [natStr_step u (by omega)]

theorem atoiLoop_append (l1 l2 : List Char) : ∀ n : Nat,
    atoiLoop (l1 ++ l2) n = (atoiLoop l1 n).bind (atoiLoop l2) := by
  induction l1 with
  | nil => intro n; simp [atoiLoop]
  | cons c t ih =>
    intro n
    simp only [List.cons_append, atoiLoop]
    split
    · exact ih _
    · rfl

theorem atoiLoop_digit (d n : Nat) (h : d < 10) :
    atoiLoop [digitChar d] n = some (n * 10 + d) := by
  have h2 : 48 + d ≤ 57 := by omega
  simp [atoiLoop, digitChar_toNat d h, h2]

theorem atoiLoop_natStr (u : Nat) : atoiLoop (natStr u) 0 = some u := by
  induction u using Nat.strong_induction_on with
  | _ u ih =>
    by_cases h : u < 10
    · rw [natStr_lt_ten u h, atoiLoop_digit u 0 h]; simp
    · rw [natStr_step u (by omega), atoiLoop_append, ih (u / 10) (by omega)]
      simp only [Option.some_bind]
      rw [atoiLoop_digit _ _ (by omega)]
      congr 1; omega

theorem atoiLoop_isSome (l : List Char) : ∀ n : Nat, (∀ c ∈ l, IsDigit c) →
    ∃ m, atoiLoop l n = some m := by
  induction l with
  | nil => intro n _; exact ⟨n, rfl⟩
  | cons c t ih =>
    intro n h
    have hc : IsDigit c := h c (List.mem_cons_self c t)
    simp only [atoiLoop, IsDigit] at hc ⊢
    rw [if_pos hc]
    exact ih _ (fun c hc => h c (List.mem_cons_of_mem _ hc))

theorem stripSign_digit (c : Char) (t : List Char) (h : IsDigit c) :
    stripSign (c :: t) = (false, c :: t) := by
  unfold stripSign
  split
  · rename_i heq
    simp only [List.cons.injEq] at heq
    rw [heq.1] at h
    exact absurd h (by unfold IsDigit; decide)
  · rename_i heq
    simp only [List.cons.injEq] at heq
    rw [heq.1] at h
    exact absurd h (by unfold IsDigit; decide)
  · rfl

theorem Atoi_digits (l : List Char) (hne : l ≠ []) (hlen : l.length < 19)
    (hd : ∀ c ∈ l, IsDigit c) :
    ∃ m : Nat, atoiLoop l 0 = some m ∧ Atoi l = ((m : Int), none) := by
  obtain ⟨m, hm⟩ := atoiLoop_isSome l 0 hd
  refine ⟨m, hm, ?_⟩
  cases l with
  | nil => exact absurd rfl hne
  | cons c t =>
    have hs := stripSign_digit c t (hd c (List.mem_cons_self c t))
    have hlen2 : t.length < 18 := by simp only [List.length_cons] at hlen; omega
    have hlen3 : ¬ 18 ≤ t.length := by omega
    simp [Atoi, hs, hm, hlen2, hlen3]

theorem Atoi_neg_digits (t : List Char) (hne : t ≠ []) (hlen : t.length + 1 < 19)
    (hd : ∀ c ∈ t, IsDigit c) :
    ∃ m : Nat, atoiLoop t 0 = some m ∧ Atoi ('-' :: t) = (-(m : Int), none) := by
  obtain ⟨m, hm⟩ := atoiLoop_isSome t 0 hd
  refine ⟨m, hm, ?_⟩
  have hs : stripSign ('-' :: t) = (true, t) := rfl
  simp [Atoi, hs, hm, hlen, hne]

/-- The shape of the output of `strconv.Itoa`: digits, or a minus sign and digits. -/
theorem itoaChars_shape (n : Int) :
    (itoaChars n ≠ [] ∧ ∀ c ∈ itoaChars n, IsDigit c) ∨
    (∃ t, itoaChars n = '-' :: t ∧ t ≠ [] ∧ ∀ c ∈ t, IsDigit c) := by
  unfold itoaChars
  split
  · exact Or.inr ⟨_, rfl, natStr_ne_nil _, natStr_digits _⟩
  · exact Or.inl ⟨natStr_ne_nil _, natStr_digits _⟩

theorem slice_some (s : List Char) (lo hi : Nat) (h1 : lo ≤ hi) (h2 : hi ≤ s.length) :
    slice s lo hi = some ((s.drop lo).take (hi - lo)) := by
  simp [slice, h1, h2]

theorem slice_none (s : List Char) (lo hi : Nat) (h : s.length < hi) :
    slice s lo hi = none := by
  have : ¬ hi ≤ s.length := by omega
  simp [slice, this]

/-- A field cut out of `Itoa`'s output behind its first byte parses without error. -/
theorem Atoi_inner_field (n : Int) (lo w : Nat) (hlo : 1 ≤ lo) (hw : 1 ≤ w) (hw2 : w < 19)
    (hlen : lo + w ≤ (itoaChars n).length) :
    ∃ v, Atoi (((itoaChars n).drop lo).take w) = (v, none) := by
  have hd : ∀ c ∈ ((itoaChars n).drop lo).take w, IsDigit c := by
    intro c hc
    have hc2 : c ∈ (itoaChars n).drop lo := List.mem_of_mem_take hc
    rcases itoaChars_shape n with ⟨_, h⟩ | ⟨t, ht, _, h⟩
    · exact h c (List.mem_of_mem_drop hc2)
    · rw [ht] at hc2
      obtain ⟨k, rfl⟩ : ∃ k, lo = k + 1 := ⟨lo - 1, by omega⟩
      rw [List.drop_succ_cons] at hc2
      exact h c (List.mem_of_mem_drop hc2)
  have hl : (((itoaChars n).drop lo).take w).length = w := by
    rw [List.length_take, List.length_drop]; omega
  have hne : ((itoaChars n).drop lo).take w ≠ [] := by
    intro h0; rw [h0] at hl; simp at hl; omega
  obtain ⟨m, _, hm⟩ := Atoi_digits _ hne (by omega) hd
  exact ⟨_, hm⟩

/-- The leading two bytes of `Itoa`'s output parse without error. -/
theorem Atoi_leading_field (n : Int) (hlen : 2 ≤ (itoaChars n).length) :
    ∃ v, Atoi ((itoaChars n).take 2) = (v, none) := by
  rcases itoaChars_shape n with ⟨_, h⟩ | ⟨t, ht, hne, h⟩
  · have hl : ((itoaChars n).take 2).length = 2 := by rw [List.length_take]; omega
    have hne : (itoaChars n).take 2 ≠ [] := by
      intro h0; rw [h0] at hl; simp at hl
    obtain ⟨m, _, hm⟩ := Atoi_digits _ hne (by omega)
      (fun c hc => h c (List.mem_of_mem_take hc))
    exact ⟨_, hm⟩
  · rw [ht]
    have e : ('-' :: t).take 2 = '-' :: t.take 1 := rfl
    rw [e]
    have hne1 : t.take 1 ≠ [] := by
      cases t with
      | nil => exact absurd rfl hne
      | cons a b => simp
    have hl : (t.take 1).length ≤ 1 := by rw [List.length_take]; omega
    obtain ⟨m, _, hm⟩ := Atoi_neg_digits _ hne1 (by omega)
      (fun c hc => h c (List.mem_of_mem_take hc))
    exact ⟨_, hm⟩

/-- With ten or more bytes in `Itoa`'s output every slice is in range and every field
parses, so `parseTimestamp` returns the decoded value, read off the first ten bytes. -/
theorem parseTimestamp_of_long (date : DateUnix) (n : Int)
    (h : 10 ≤ (itoaChars n).length) :
    parseTimestamp date n =
      .returned
        (date ((Atoi ((itoaChars n).take 2)).1 + 2000)
            (Atoi (((itoaChars n).drop 2).take 2)).1
            (Atoi (((itoaChars n).drop 4).take 2)).1
            (Int.tdiv (Atoi (((itoaChars n).drop 6).take 4)).1 60)
            ((Atoi (((itoaChars n).drop 6).take 4)).1
              - Int.tdiv (Atoi (((itoaChars n).drop 6).take 4)).1 60 * 60) 0 0 * 1000)
        none := by
  obtain ⟨y, hy⟩ := Atoi_leading_field n (by omega)
  obtain ⟨m, hm⟩ := Atoi_inner_field n 2 2 (by omega) (by omega) (by omega) (by omega)
  obtain ⟨d, hd⟩ := Atoi_inner_field n 4 2 (by omega) (by omega) (by omega) (by omega)
  obtain ⟨t, ht⟩ := Atoi_inner_field n 6 4 (by omega) (by omega) (by omega) (by omega)
  have s1 : slice (itoaChars n) 0 2 = some ((itoaChars n).take 2) :=
    slice_some (itoaChars n) 0 2 (by omega) (by omega)
  have s2 : slice (itoaChars n) 2 4 = some (((itoaChars n).drop 2).take 2) :=
    slice_some (itoaChars n) 2 4 (by omega) (by omega)
  have s3 : slice (itoaChars n) 4 6 = some (((itoaChars n).drop 4).take 2) :=
    slice_some (itoaChars n) 4 6 (by omega) (by omega)
  have s4 : slice (itoaChars n) 6 10 = some (((itoaChars n).drop 6).take 4) :=
    slice_some (itoaChars n) 6 10 (by omega) (by omega)
  unfold parseTimestamp
  simp only [s1, s2, s3, s4, hy, hm, hd, ht]

/-- With fewer than ten bytes in `Itoa`'s output one of the four slices is out of range:
`parseTimestamp` panics. -/
theorem parseTimestamp_of_short (date : DateUnix) (n : Int)
    (h : (itoaChars n).length < 10) : parseTimestamp date n = .panicked := by
  have s4 : slice (itoaChars n) 6 10 = none := slice_none _ _ _ h
  unfold parseTimestamp
  by_cases h2 : 2 ≤ (itoaChars n).length
  · obtain ⟨y, hy⟩ := Atoi_leading_field n h2
    have s1 : slice (itoaChars n) 0 2 = some ((itoaChars n).take 2) :=
      slice_some (itoaChars n) 0 2 (by omega) (by omega)
    by_cases h4 : 4 ≤ (itoaChars n).length
    · obtain ⟨m, hm⟩ := Atoi_inner_field n 2 2 (by omega) (by omega) (by omega) (by omega)
      have s2 : slice (itoaChars n) 2 4 = some (((itoaChars n).drop 2).take 2) :=
        slice_some (itoaChars n) 2 4 (by omega) (by omega)
      by_cases h6 : 6 ≤ (itoaChars n).length
      · obtain ⟨d, hd⟩ := Atoi_inner_field n 4 2 (by omega) (by omega) (by omega) (by omega)
        have s3 : slice (itoaChars n) 4 6 = some (((itoaChars n).drop 4).take 2) :=
          slice_some (itoaChars n) 4 6 (by omega) (by omega)
        simp only [s1, s2, s3, s4, hy, hm, hd]
      · have s3 : slice (itoaChars n) 4 6 = none := slice_none _ _ _ (by omega)
        simp only [s1, s2, s3, hy, hm]
    · have s2 : slice (itoaChars n) 2 4 = none := slice_none _ _ _ (by omega)
      simp only [s1, s2, hy]
  · have s1 : slice (itoaChars n) 0 2 = none := slice_none _ _ _ (by omega)
    simp only [s1]

theorem natStr_snoc (q d : Nat) (hq : 1 ≤ q) (hd : d < 10) :
    natStr (10 * q + d) = natStr q ++ [digitChar d] := by
  rw [natStr_step (10 * q + d) (by omega)]
  have e1 : (10 * q + d) / 10 = q := by omega
  have e2 : (10 * q + d) % 10 = d := by omega
  rw [e1, e2]

/-- The rendering of a number of exactly ten decimal digits, digit by digit. -/
theorem natStr_ten (a9 a8 a7 a6 a5 a4 a3 a2 a1 a0 : Nat) (h9 : 1 ≤ a9) (h9' : a9 < 10)
    (h8 : a8 < 10) (h7 : a7 < 10) (h6 : a6 < 10) (h5 : a5 < 10) (h4 : a4 < 10)
    (h3 : a3 < 10) (h2 : a2 < 10) (h1 : a1 < 10) (h0 : a0 < 10) :
    natStr (10 * (10 * (10 * (10 * (10 * (10 * (10 * (10 * (10 * a9 + a8) + a7) + a6) + a5)
        + a4) + a3) + a2) + a1) + a0) =
      [digitChar a9, digitChar a8, digitChar a7, digitChar a6, digitChar a5,
        digitChar a4, digitChar a3, digitChar a2, digitChar a1, digitChar a0] := by
  rw [natStr_snoc _ a0 (by omega) h0, natStr_snoc _ a1 (by omega) h1,
    natStr_snoc _ a2 (by omega) h2, natStr_snoc _ a3 (by omega) h3,
    natStr_snoc _ a4 (by omega) h4, natStr_snoc _ a5 (by omega) h5,
    natStr_snoc _ a6 (by omega) h6, natStr_snoc _ a7 (by omega) h7,
    natStr_snoc _ a8 (by omega) h8, natStr_lt_ten a9 h9']
  rfl

theorem digitChar_isDigit (d : Nat) (h : d < 10) : IsDigit (digitChar d) := by
  simp only [IsDigit, digitChar_toNat d h]; omega

theorem Atoi_two (a b : Nat) (ha : a < 10) (hb : b < 10) :
    Atoi [digitChar a, digitChar b] = (((a * 10 + b : Nat) : Int), none) := by
  obtain ⟨m, hm, h⟩ := Atoi_digits [digitChar a, digitChar b] (by simp) (by simp)
    (by
      intro c hc
      simp only [List.mem_cons, List.mem_singleton, List.not_mem_nil, or_false] at hc
      rcases hc with rfl | rfl
      · exact digitChar_isDigit a ha
      · exact digitChar_isDigit b hb)
  have e : atoiLoop [digitChar a, digitChar b] 0 = some (a * 10 + b) := by
    have := atoiLoop_append [digitChar a] [digitChar b] 0
    simp only [List.singleton_append] at this
    rw [this, atoiLoop_digit a 0 ha, Option.some_bind, atoiLoop_digit b _ hb]
    simp
  rw [e] at hm
  cases hm
  exact h

theorem Atoi_four (a b c d : Nat) (ha : a < 10) (hb : b < 10) (hc : c < 10) (hd : d < 10) :
    Atoi [digitChar a, digitChar b, digitChar c, digitChar d] =
      (((((a * 10 + b) * 10 + c) * 10 + d : Nat) : Int), none) := by
  obtain ⟨m, hm, h⟩ := Atoi_digits [digitChar a, digitChar b, digitChar c, digitChar d]
    (by simp) (by simp)
    (by
      intro x hx
      simp only [List.mem_cons, List.mem_singleton, List.not_mem_nil, or_false] at hx
      rcases hx with rfl | rfl | rfl | rfl
      · exact digitChar_isDigit a ha
      · exact digitChar_isDigit b hb
      · exact digitChar_isDigit c hc
      · exact digitChar_isDigit d hd)
  have e : atoiLoop [digitChar a, digitChar b, digitChar c, digitChar d] 0 =
      some (((a * 10 + b) * 10 + c) * 10 + d) := by
    have h1 := atoiLoop_append [digitChar a] [digitChar b, digitChar c, digitChar d] 0
    have h2 := atoiLoop_append [digitChar b] [digitChar c, digitChar d] (0 * 10 + a)
    have h3 := atoiLoop_append [digitChar c] [digitChar d] ((0 * 10 + a) * 10 + b)
    simp only [List.singleton_append] at h1 h2 h3
    rw [h1, atoiLoop_digit a 0 ha, Option.some_bind, h2, atoiLoop_digit b _ hb,
      Option.some_bind, h3, atoiLoop_digit c _ hc, Option.some_bind, atoiLoop_digit d _ hd]
    simp
  rw [e] at hm
  cases hm
  exact h

theorem itoaChars_natCast (n : Nat) : itoaChars (n : Int) = natStr n := by
  have h : ¬ ((n : Int) < 0) := by omega
  simp [itoaChars, h]

/-- C4. For every packed timestamp of exactly ten decimal digits `YYMMDDmmmm` with month
`MM` in 1..12, `DD` a valid day of that month and `mmmm` in 0..1439, `parseTimestamp`
returns a nil error and 1000 times the Unix seconds that `time.Date` gives, in the local
zone of the process, for year `2000+YY`, month `MM`, day `DD`, hour `mmmm/60`,
minute `mmmm mod 60`, second 0. -/
theorem parseTimestamp_decodes (date : DateUnix) (YY MM DD mmmm : Nat)
    (hY : 10 ≤ YY ∧ YY ≤ 99) (hM : 1 ≤ MM ∧ MM ≤ 12)
    (hD : 1 ≤ DD ∧ DD ≤ daysInMonth (2000 + YY) MM) (hm : mmmm ≤ 1439) :
    parseTimestamp date ((YY * 100000000 + MM * 1000000 + DD * 10000 + mmmm : Nat) : Int) =
      .returned
        (1000 * date (2000 + (YY : Int)) MM DD ((mmmm / 60 : Nat) : Int)
          ((mmmm % 60 : Nat) : Int) 0 0)
        none := by
  have hD31 : DD ≤ 31 := by
    have : daysInMonth (2000 + YY) MM ≤ 31 := by
      unfold daysInMonth; split_ifs <;> omega
    omega
  have hn : YY * 100000000 + MM * 1000000 + DD * 10000 + mmmm =
      10 * (10 * (10 * (10 * (10 * (10 * (10 * (10 * (10 * (YY / 10) + YY % 10) + MM / 10)
        + MM % 10) + DD / 10) + DD % 10) + mmmm / 1000) + mmmm / 100 % 10)
        + mmmm / 10 % 10) + mmmm % 10 := by omega
  have hs : itoaChars ((YY * 100000000 + MM * 1000000 + DD * 10000 + mmmm : Nat) : Int) =
      [digitChar (YY / 10), digitChar (YY % 10), digitChar (MM / 10), digitChar (MM % 10),
        digitChar (DD / 10), digitChar (DD % 10), digitChar (mmmm / 1000),
        digitChar (mmmm / 100 % 10), digitChar (mmmm / 10 % 10), digitChar (mmmm % 10)] := by
    rw [itoaChars_natCast, hn]
    exact natStr_ten _ _ _ _ _ _ _ _ _ _ (by omega) (by omega) (by omega) (by omega)
      (by omega) (by omega) (by omega) (by omega) (by omega) (by omega) (by omega)
  rw [parseTimestamp_of_long date _ (by rw [hs]; simp), hs]
  simp only [List.take, List.drop]
  rw [Atoi_two (YY / 10) (YY % 10) (by omega) (by omega),
    Atoi_two (MM / 10) (MM % 10) (by omega) (by omega),
    Atoi_two (DD / 10) (DD % 10) (by omega) (by omega),
    Atoi_four (mmmm / 1000) (mmmm / 100 % 10) (mmmm / 10 % 10) (mmmm % 10)
      (by omega) (by omega) (by omega) (by omega)]
  have e1 : YY / 10 * 10 + YY % 10 = YY := by omega
  have e2 : MM / 10 * 10 + MM % 10 = MM := by omega
  have e3 : DD / 10 * 10 + DD % 10 = DD := by omega
  have e4 : ((mmmm / 1000 * 10 + mmmm / 100 % 10) * 10 + mmmm / 10 % 10) * 10 + mmmm % 10
      = mmmm := by omega
  simp only [e1, e2, e3, e4]
  have e5 : Int.tdiv (mmmm : Int) 60 = ((mmmm / 60 : Nat) : Int) := by
    rw [Int.tdiv_eq_ediv (by omega) (by omega)]; rfl
  have e6 : (mmmm : Int) - ((mmmm / 60 : Nat) : Int) * 60 = ((mmmm % 60 : Nat) : Int) := by
    omega
  rw [e5, e6, mul_comm, add_comm]

/-- C4 at the packed value 2401011230, in a process whose local zone is UTC: the result
is the epoch-millisecond value of 2024-01-01T20:30:00. -/
theorem parseTimestamp_decodes_witness :
    parseTimestamp utcDateUnix 2401011230 =
      .returned (1000 * utcDateUnix 2024 1 1 20 30 0 0) none ∧
    1000 * utcDateUnix 2024 1 1 20 30 0 0 = 1704141000000 :=
  ⟨parseTimestamp_decodes utcDateUnix 24 1 1 1230 (by decide) (by decide) (by decide)
    (by decide), by decide⟩

/-- C10. The error result of `parseTimestamp` is unreachable. For every integer `n`:
when `strconv.Itoa(n)` has at least ten bytes the call returns a value with a nil error,
the value being decoded from the slices `s[0:2]`, `s[2:4]`, `s[4:6]`, `s[6:10]` alone
(bytes past the tenth are not read); when it has fewer than ten bytes the fixed-width
slicing is out of range and the call panics; in no case is a non-nil error returned. -/
theorem parseTimestamp_never_returns_error (date : DateUnix) (n : Int) :
    (10 ≤ (Itoa n).length →
      parseTimestamp date n =
        .returned
          (date ((Atoi ((Itoa n).data.take 2)).1 + 2000)
              (Atoi (((Itoa n).data.drop 2).take 2)).1
              (Atoi (((Itoa n).data.drop 4).take 2)).1
              (Int.tdiv (Atoi (((Itoa n).data.drop 6).take 4)).1 60)
              ((Atoi (((Itoa n).data.drop 6).take 4)).1
                - Int.tdiv (Atoi (((Itoa n).data.drop 6).take 4)).1 60 * 60) 0 0 * 1000)
          none) ∧
    ((Itoa n).length < 10 → parseTimestamp date n = .panicked) ∧
    (∀ (v : Int) (e : NumError), parseTimestamp date n ≠ .returned v (some e)) := by
  have hlen : (Itoa n).length = (itoaChars n).length := rfl
  have hdata : (Itoa n).data = itoaChars n := rfl
  refine ⟨?_, ?_, ?_⟩
  · intro h
    rw [hdata]
    exact parseTimestamp_of_long date n (by omega)
  · intro h
    exact parseTimestamp_of_short date n (by omega)
  · intro v e
    by_cases h : 10 ≤ (itoaChars n).length
    · rw [parseTimestamp_of_long date n h]
      intro hc
      cases hc
    · rw [parseTimestamp_of_short date n (by omega)]
      intro hc
      cases hc

/-- C10, at concrete inputs: a ten-byte date, an eleven-byte number whose last byte is
not read, a negative number, and a nine-byte date. -/
theorem parseTimestamp_never_returns_error_witness :
    parseTimestamp utcDateUnix 2401011230 = .returned 1704141000000 none ∧
    parseTimestamp utcDateUnix 24010112307 = .returned 1704141000000 none ∧
    parseTimestamp utcDateUnix (-123456789) = .returned 977245740000 none ∧
    parseTimestamp utcDateUnix 901011230 = .panicked := by
  refine ⟨?_, ?_, ?_, ?_⟩
  · rw [(parseTimestamp_never_returns_error utcDateUnix 2401011230).1 (by decide)]; decide
  · rw [(parseTimestamp_never_returns_error utcDateUnix 24010112307).1 (by decide)]; decide
  · rw [(parseTimestamp_never_returns_error utcDateUnix (-123456789)).1 (by decide)]; decide
  · exact (parseTimestamp_never_returns_error utcDateUnix 901011230).2.1 (by decide)

/-- C5. `parseTimestamp(901011230)`, the packed form of 2009-01-01 20:30 whose leading
zero is lost, has nine bytes: the slice `s[6:10]` is out of range and the call panics;
no error value is returned to the caller. -/
theorem parseTimestamp_short_input_panics (date : DateUnix) :
    (Itoa 901011230).length = 9 ∧ parseTimestamp date 901011230 = .panicked ∧
    (Itoa 7).length = 1 ∧ parseTimestamp date 7 = .panicked := by
  refine ⟨by decide, ?_, by decide, ?_⟩
  · exact parseTimestamp_of_short date 901011230 (by decide)
  · exact parseTimestamp_of_short date 7 (by decide)

/-! ## getQuotesUrl: theorems -/

theorem natStr_injective (u v : Nat) (h : natStr u = natStr v) : u = v := by
  have hu := atoiLoop_natStr u
  rw [h, atoiLoop_natStr v] at hu
  exact (Option.some.inj hu).symm

theorem itoaChars_injective (p q : Int) (h : itoaChars p = itoaChars q) : p = q := by
  have hminus : ∀ u : Nat, ∀ t : List Char, natStr u ≠ '-' :: t := by
    intro u t hc
    have := natStr_digits u '-' (by rw [hc]; exact List.mem_cons_self _ _)
    exact absurd this (by unfold IsDigit; decide)
  unfold itoaChars at h
  by_cases hp : p < 0 <;> by_cases hq : q < 0
  · rw [if_pos hp, if_pos hq] at h
    have := natStr_injective _ _ (List.cons.inj h).2
    omega
  · rw [if_pos hp, if_neg hq] at h
    exact absurd h.symm (hminus _ _)
  · rw [if_neg hp, if_pos hq] at h
    exact absurd h (hminus _ _)
  · rw [if_neg hp, if_neg hq] at h
    have := natStr_injective _ _ h
    omega

/-- The bytes of the target: the host, the path, whose page segment is empty for page 1,
and the query string. -/
theorem getQuotesUrl_data (lib : Lib) (symbol : String) (startDate : Time)
    (duration period : String) (page : Int) :
    (getQuotesUrl lib symbol startDate duration period page).data =
      "http://www.boursorama.com/_formulaire-periode/".data ++
        (if page = 1 then [] else "page-".data ++ itoaChars page) ++
        (queryString lib symbol startDate duration period).data := by
  unfold getQuotesUrl queryString formatLayoutISO Itoa
  split
  · simp only [String.data_append, List.append_assoc, List.nil_append]
    rfl
  · simp only [String.data_append, List.append_assoc]
    rfl

theorem getQuotesUrl_injective (lib : Lib) (symbol : String) (startDate : Time)
    (duration period : String) (p q : Int)
    (h : getQuotesUrl lib symbol startDate duration period p =
      getQuotesUrl lib symbol startDate duration period q) : p = q := by
  have hd := congrArg String.data h
  rw [getQuotesUrl_data, getQuotesUrl_data] at hd
  have h1 := List.append_cancel_right hd
  have h2 := List.append_cancel_left h1
  by_cases hp : p = 1 <;> by_cases hq : q = 1
  · rw [hp, hq]
  · rw [if_pos hp, if_neg hq] at h2
    exact absurd (congrArg List.length h2) (by simp)
  · rw [if_neg hp, if_pos hq] at h2
    exact absurd (congrArg List.length h2) (by simp)
  · rw [if_neg hp, if_neg hq] at h2
    exact itoaChars_injective p q (List.append_cancel_left h2)

/-- C7. `getQuotesUrl` is a total function. Its result carries the symbol as
`ToUpper(TrimSpace(symbol))` and the start date as zero-padded day, month and year
separated by slashes. For page 1 the path is `/_formulaire-periode/` with no page
segment; for every page `p >= 2` it is `/_formulaire-periode/page-<p>`, `p` in decimal;
the query string is the same in both shapes; distinct page indices give distinct
targets. -/
theorem getQuotesUrl_shape (lib : Lib) (symbol : String) (startDate : Time)
    (duration period : String) :
    queryString lib symbol startDate duration period =
      "?symbol=" ++ lib.ToUpper (lib.TrimSpace symbol) ++ "&historic_search[startDate]=" ++
        (String.mk (appendInt startDate.Day 2) ++ "/" ++
          String.mk (appendInt startDate.Month 2) ++ "/" ++
          String.mk (appendInt startDate.Year 4)) ++
        "&historic_search[duration]=" ++ duration ++ "&historic_search[period]=" ++ period ∧
    getQuotesUrl lib symbol startDate duration period 1 =
      "http://www.boursorama.com" ++ "/_formulaire-periode/" ++
        queryString lib symbol startDate duration period ∧
    (∀ p : Int, 2 ≤ p →
      getQuotesUrl lib symbol startDate duration period p =
        "http://www.boursorama.com" ++ ("/_formulaire-periode/page-" ++ Itoa p) ++
          queryString lib symbol startDate duration period) ∧
    (∀ p q : Int, p ≠ q →
      getQuotesUrl lib symbol startDate duration period p ≠
        getQuotesUrl lib symbol startDate duration period q) := by
  refine ⟨rfl, ?_, ?_, ?_⟩
  · apply String.ext
    rw [getQuotesUrl_data]
    simp only [String.data_append, if_true, List.append_nil]
    rfl
  · intro p hp
    have hp1 : p ≠ 1 := by omega
    apply String.ext
    rw [getQuotesUrl_data, if_neg hp1]
    simp only [String.data_append, Itoa, List.append_assoc]
    rfl
  · intro p q hpq hc
    exact hpq (getQuotesUrl_injective lib symbol startDate duration period p q hc)

/-- C7 at the symbol ` xyz `, start date 01/01/2024: the target of page 12, and the
targets of pages 1 and 2 differ. -/
theorem getQuotesUrl_shape_witness :
    getQuotesUrl asciiLib " xyz " { Year := 2024, Month := 1, Day := 1 } "3M" "1" 12 =
      "http://www.boursorama.com/_formulaire-periode/page-12?symbol=XYZ&historic_search[startDate]=01/01/2024&historic_search[duration]=3M&historic_search[period]=1" ∧
    getQuotesUrl asciiLib " xyz " { Year := 2024, Month := 1, Day := 1 } "3M" "1" 1 ≠
      getQuotesUrl asciiLib " xyz " { Year := 2024, Month := 1, Day := 1 } "3M" "1" 2 :=
  ⟨((getQuotesUrl_shape asciiLib " xyz " { Year := 2024, Month := 1, Day := 1 } "3M"
      "1").2.2.1 12 (by decide)).trans (by decide),
    (getQuotesUrl_shape asciiLib " xyz " { Year := 2024, Month := 1, Day := 1 } "3M"
      "1").2.2.2 1 2 (by decide)⟩

/-! ## GetEODTicks: theorems -/

/-- Over a `QuoteTab` on which no call of `parseTimestamp` panics the loop runs to the
end and stores in every `Date` the timestamp returned for it. -/
theorem quoteTabLoop_map (date : DateUnix) (ticks : List Tick)
    (h : ∀ t ∈ ticks, parseTimestamp date t.Date ≠ .panicked) :
    quoteTabLoop date ticks =
      some (ticks.map fun t => { t with Date := (parseTimestamp date t.Date).timestamp }) := by
  induction ticks with
  | nil => rfl
  | cons t rest ih =>
    have ht := h t (List.mem_cons_self t rest)
    have ih1 := ih (fun x hx => h x (List.mem_cons_of_mem t hx))
    simp only [quoteTabLoop, ih1, List.map_cons]
    cases hp : parseTimestamp date t.Date with
    | panicked => exact absurd hp ht
    | returned v e => simp [storeTimestamp, Returned.timestamp]

/-- C6 fails on a `QuoteTab` whose first date, 901011230, has nine bytes. The call of
`parseTimestamp` for that tick returns no error to test: it panics, for every local zone.
The loop is left at that tick, so the tick does not keep its packed value for the caller
and the tick behind it, whose date 2401011230 decodes when it is processed alone, is not
processed. -/
theorem quoteTabLoop_short_date_aborts (date : DateUnix) :
    parseTimestamp date 901011230 = .panicked ∧
    quoteTabLoop date
        [{ Date := 901011230, OpenPrice := 1, HighestPrice := 2, LowestPrice := 3,
           ClosingPrice := 4, Volume := 5 },
         { Date := 2401011230, OpenPrice := 6, HighestPrice := 7, LowestPrice := 8,
           ClosingPrice := 9, Volume := 10 }] = none ∧
    quoteTabLoop utcDateUnix
        [{ Date := 2401011230, OpenPrice := 6, HighestPrice := 7, LowestPrice := 8,
           ClosingPrice := 9, Volume := 10 }] =
      some [{ Date := 1704141000000, OpenPrice := 6, HighestPrice := 7, LowestPrice := 8,
              ClosingPrice := 9, Volume := 10 }] := by
  have hp : parseTimestamp date 901011230 = .panicked :=
    parseTimestamp_of_short date 901011230 (by decide)
  refine ⟨hp, ?_, by decide⟩
  simp only [quoteTabLoop, hp, storeTimestamp]

/-! ## GetQuotes: theorems -/

theorem contains_iff (values : List String) (query : String) :
    contains values query = true ↔ query ∈ values := by
  induction values with
  | nil => simp [contains]
  | cons v vs ih =>
    simp only [contains, List.mem_cons]
    split
    · rename_i h; simp [h]
    · rename_i h
      rw [ih]
      constructor
      · exact Or.inr
      · rintro (h1 | h1)
        · exact absurd h1.symm h
        · exact h1

/-- C1. A call of `GetQuotes` whose duration is not in `DefaultDurations` or whose period
is not in `DefaultPeriods` returns a validation error and no quotes, and has called
`getHTMLDocument` zero times, whatever the source and the schedule. -/
theorem GetQuotes_rejects_invalid (lib : Lib) (src : Source) (req : Request)
    (schedule : List Action)
    (h : req.duration ∉ DefaultDurations ∨ req.period ∉ DefaultPeriods) :
    ∃ msg, GetQuotes lib src req schedule =
      { result := some (none, some (.validation msg)), fetched := [], crashed := false } := by
  unfold GetQuotes
  by_cases hd : contains DefaultDurations req.duration = true
  · have hp : ¬ contains DefaultPeriods req.period = true := by
      rw [contains_iff]
      rcases h with h | h
      · exact absurd ((contains_iff _ _).mp hd) h
      · exact h
    exact ⟨"Period must be one of " ++ fmtStrings DefaultPeriods,
      by rw [if_neg (not_not.mpr hd), if_pos hp]⟩
  · exact ⟨"Duration must be one of " ++ fmtStrings DefaultDurations, by rw [if_pos hd]⟩

/-- C1 at the fixture site with the duration `13M`, and with the period `2`. -/
theorem GetQuotes_rejects_invalid_witness :
    ("13M" ∉ DefaultDurations ∧ "2" ∉ DefaultPeriods) ∧
    (∃ msg, GetQuotes asciiLib (fixtureSite (.ok fixturePage2) (.ok fixturePage3))
        { fixtureRequest with duration := "13M" } scheduleInTurn =
      { result := some (none, some (.validation msg)), fetched := [], crashed := false }) ∧
    (∃ msg, GetQuotes asciiLib (fixtureSite (.ok fixturePage2) (.ok fixturePage3))
        { fixtureRequest with period := "2" } scheduleInTurn =
      { result := some (none, some (.validation msg)), fetched := [], crashed := false }) :=
  ⟨by decide,
    GetQuotes_rejects_invalid asciiLib _ { fixtureRequest with duration := "13M" } _
      (Or.inl (by decide)),
    GetQuotes_rejects_invalid asciiLib _ { fixtureRequest with period := "2" } _
      (Or.inr (by decide))⟩

/-- A source of one page: the rows of that page, in document order, one fetch. -/
theorem GetQuotes_single_page (lib : Lib) (src : Source) (req : Request)
    (schedule : List Action) (doc : Document)
    (hd : req.duration ∈ DefaultDurations) (hp : req.period ∈ DefaultPeriods)
    (hsrc : src (getQuotesUrl lib req.symbol req.startDate req.duration req.period 1) = .ok doc)
    (hn : doc.paginationSpans < 2) :
    GetQuotes lib src req schedule =
      { result := some (some (scrapQuotes lib doc), none),
        fetched := [getQuotesUrl lib req.symbol req.startDate req.duration req.period 1],
        crashed := false } := by
  unfold GetQuotes
  rw [← contains_iff] at hd hp
  simp only [hd, hp, not_true_eq_false, if_false, hsrc, hn, if_true]

/-- The fixture under the schedule that runs the page goroutines one after the other:
the rows of pages 1, 2, 3 in page order. -/
theorem fixture_in_turn :
    GetQuotes asciiLib (fixtureSite (.ok fixturePage2) (.ok fixturePage3)) fixtureRequest
        scheduleInTurn =
      { result := some (some (scrapQuotes asciiLib fixturePage1 ++
          scrapQuotes asciiLib fixturePage2 ++ scrapQuotes asciiLib fixturePage3), none),
        fetched := [fixtureUrl 1, fixtureUrl 2, fixtureUrl 3], crashed := false } := by
  decide

/-- The fixture with a failing page 2 under the schedule that runs the page goroutines
one after the other: the caller receives the error of page 2. -/
theorem fixture_in_turn_failure :
    GetQuotes asciiLib
        (fixtureSite (.error (.status 500 "500 Internal Server Error")) (.ok fixturePage3))
        fixtureRequest (unitSteps 1 8 ++ unitSteps 2 8 ++ [.recv 1, .main, .main, .unit 1]) =
      { result := some (none, some (.status 500 "500 Internal Server Error")),
        fetched := [fixtureUrl 1, fixtureUrl 2, fixtureUrl 3], crashed := false } := by
  decide

/-- C2 fails on the three-page fixture whose pages all fetch successfully. Under the
schedule in which the goroutine of page 3 assigns the shared variable `doc` after the
goroutine of page 2 has assigned it and before it reads it, every page is fetched once,
and `GetQuotes` returns a nil error and the rows of page 1, page 3, page 3, which is not
the rows of pages 1, 2, 3. -/
theorem GetQuotes_overlap_repeats_page :
    GetQuotes asciiLib (fixtureSite (.ok fixturePage2) (.ok fixturePage3)) fixtureRequest
        scheduleOverlap =
      { result := some (some (scrapQuotes asciiLib fixturePage1 ++
          scrapQuotes asciiLib fixturePage3 ++ scrapQuotes asciiLib fixturePage3), none),
        fetched := [fixtureUrl 1, fixtureUrl 2, fixtureUrl 3], crashed := false } ∧
    scrapQuotes asciiLib fixturePage1 ++ scrapQuotes asciiLib fixturePage3 ++
        scrapQuotes asciiLib fixturePage3 ≠
      scrapQuotes asciiLib fixturePage1 ++ scrapQuotes asciiLib fixturePage2 ++
        scrapQuotes asciiLib fixturePage3 := by
  decide

/-- C3 fails on the three-page fixture whose page 2 answers with status 500. Under the
schedule in which the goroutine of page 3 assigns the shared variable `err` (to nil)
after the goroutine of page 2 has assigned it its error and before it tests it, no error
is sent, and `GetQuotes` returns a nil error with the rows of page 1, page 3, page 3. -/
theorem GetQuotes_overlap_loses_error :
    (fixtureSite (.error (.status 500 "500 Internal Server Error")) (.ok fixturePage3)
        (fixtureUrl 2)).toOption = none ∧
    GetQuotes asciiLib
        (fixtureSite (.error (.status 500 "500 Internal Server Error")) (.ok fixturePage3))
        fixtureRequest scheduleOverlap =
      { result := some (some (scrapQuotes asciiLib fixturePage1 ++
          scrapQuotes asciiLib fixturePage3 ++ scrapQuotes asciiLib fixturePage3), none),
        fetched := [fixtureUrl 1, fixtureUrl 2, fixtureUrl 3], crashed := false } := by
  refine ⟨?_, ?_⟩
  · decide
  · decide

/-- C8 fails on the three-page fixture. The goroutine of page 2 assigns the variables
`url` and `doc`; the goroutine of page 3 then assigns the same two variables; and what the
goroutine of page 2 goes on to store in its slot `quotesByPage[1]` is the rows of the
document that the goroutine of page 3 assigned, where alone it stores the rows of its
own page. -/
theorem page_units_share_variables :
    (run asciiLib (fixtureSite (.ok fixturePage2) (.ok fixturePage3)) fixtureRequest
        (fanOut asciiLib (fixtureUrl 1) fixturePage1) (unitSteps 1 3)).url = fixtureUrl 2 ∧
    (run asciiLib (fixtureSite (.ok fixturePage2) (.ok fixturePage3)) fixtureRequest
        (fanOut asciiLib (fixtureUrl 1) fixturePage1) (unitSteps 1 3)).doc
      = some fixturePage2 ∧
    (run asciiLib (fixtureSite (.ok fixturePage2) (.ok fixturePage3)) fixtureRequest
        (fanOut asciiLib (fixtureUrl 1) fixturePage1) (unitSteps 1 3 ++ unitSteps 2 3)).url
      = fixtureUrl 3 ∧
    (run asciiLib (fixtureSite (.ok fixturePage2) (.ok fixturePage3)) fixtureRequest
        (fanOut asciiLib (fixtureUrl 1) fixturePage1) (unitSteps 1 3 ++ unitSteps 2 3)).doc
      = some fixturePage3 ∧
    (run asciiLib (fixtureSite (.ok fixturePage2) (.ok fixturePage3)) fixtureRequest
        (fanOut asciiLib (fixtureUrl 1) fixturePage1)
        (unitSteps 1 3 ++ unitSteps 2 3 ++ unitSteps 1 3)).quotesByPage.get? 1
      = some (some (scrapQuotes asciiLib fixturePage3)) ∧
    (run asciiLib (fixtureSite (.ok fixturePage2) (.ok fixturePage3)) fixtureRequest
        (fanOut asciiLib (fixtureUrl 1) fixturePage1)
        (unitSteps 1 3 ++ unitSteps 1 3)).quotesByPage.get? 1
      = some (some (scrapQuotes asciiLib fixturePage2)) := by
  refine ⟨?_, ?_, ?_, ?_, ?_, ?_⟩ <;> decide

/-- C9 fails on the three-page fixture whose pages 2 and 3 both fail. Both page
goroutines reach their send; the caller receives the error of page 2, closes
`fatalErrors` and returns that error; the goroutine of page 3 then sends on the closed
channel, which is a panic of the process. -/
theorem GetQuotes_second_sender_panics :
    GetQuotes asciiLib
        (fixtureSite (.error (.status 500 "500 Internal Server Error"))
          (.error (.status 503 "503 Service Unavailable")))
        fixtureRequest scheduleTwoSenders =
      { result := some (none, some (.status 500 "500 Internal Server Error")),
        fetched := [fixtureUrl 1, fixtureUrl 2, fixtureUrl 3], crashed := true } := by
  decide

end StockAlert
